import Mathlib

/-!
Verification development for the retrieve → rerank → generate → validate
RAG pipeline.  Python strings are modelled as `String`/`List Char`; the
fallible functions return `Except String α` where the error value models a
raised Python exception (`GuardrailViolation`, `ValueError`, …) carrying its
message.  External collaborators (the FAISS index, the Groq text-generation
provider, the process clock) are passed in as explicit arguments: a provider
response is a `String` (or `Option String` when the call itself may fail),
so every theorem quantifies over what the external services returned.
-/

set_option maxRecDepth 100000

deriving instance DecidableEq for Except

/-! ## Python string primitives -/

/-- Modelled from the spec: CPython's `str.isspace` character set, which is
also the separator set of `str.split()` and `str.strip()` (the `str` builtin
itself is outside the repository). -/
def pyIsSpace (c : Char) : Bool :=
  c = ' ' || c = '\t' || c = '\n' || c.toNat = 0x0b || c.toNat = 0x0c || c = '\r' ||
  c.toNat = 0x1c || c.toNat = 0x1d || c.toNat = 0x1e || c.toNat = 0x1f ||
  c.toNat = 0x85 || c.toNat = 0xa0 || c.toNat = 0x1680 ||
  (0x2000 ≤ c.toNat && c.toNat ≤ 0x200a) ||
  c.toNat = 0x2028 || c.toNat = 0x2029 || c.toNat = 0x202f ||
  c.toNat = 0x205f || c.toNat = 0x3000

/-- The character class `[\x00-\x1f\x7f-\x9f]` of `sanitize_input`'s
control-character removal step (guardrails.py line 69). -/
def isCtl (c : Char) : Bool :=
  c.toNat ≤ 0x1f || (0x7f ≤ c.toNat && c.toNat ≤ 0x9f)

/-- The character class `[{}[\]\\]` of `sanitize_input`'s special-character
removal step (guardrails.py line 75). -/
def isSpecialChar (c : Char) : Bool :=
  c = '\x7b' || c = '\x7d' || c = '[' || c = ']' || c = '\\'

/-- `s.split()`: split on runs of whitespace, discarding empty pieces. -/
def pySplitWords (s : List Char) : List (List Char) :=
  (s.splitOnP pyIsSpace).filter (· ≠ [])

/-- `" ".join(s.split())`: the whitespace-collapsing step of
`sanitize_input` (guardrails.py line 66). -/
def collapseWs (s : List Char) : List Char :=
  List.intercalate [' '] (pySplitWords s)

/-- One pass of `re.sub(r"<[^>]+>", "", s)` (guardrails.py line 72): scan
left to right; at a `<`, if at least one non-`>` character is followed by a
`>`, delete through that first `>` and continue after it, otherwise emit the
character and move on. -/
def removeTagsF : Nat → List Char → List Char
  | 0, s => s
  | _ + 1, [] => []
  | fuel + 1, c :: rest =>
    if c = '<' ∧ rest.takeWhile (· ≠ '>') ≠ [] ∧ rest.dropWhile (· ≠ '>') ≠ [] then
      removeTagsF fuel (rest.dropWhile (· ≠ '>')).tail
    else
      c :: removeTagsF fuel rest

/-- `re.sub(r"<[^>]+>", "", s)` itself; each step consumes at least one
character, so `s.length` fuel always suffices. -/
def removeTags (s : List Char) : List Char := removeTagsF s.length s

/-- `s.strip()`: remove leading and trailing whitespace. -/
def pyStrip (s : List Char) : List Char :=
  ((s.dropWhile pyIsSpace).reverse.dropWhile pyIsSpace).reverse

/-- `s.strip()` on `String`. -/
def pyStripStr (s : String) : String := (pyStrip s.toList).asString

/-- `s.lower()` (ASCII letters; the repository's inputs are ASCII). -/
def pyLower (s : String) : String := (s.toList.map Char.toLower).asString

/-- `sanitize_input` (guardrails.py lines 56–77): collapse whitespace, drop
control characters, drop `<[^>]+>` tags, drop `{`/`}`/`[`/`]`/`\`, strip. -/
def sanitize_input (query : String) : String :=
  (pyStrip (((removeTags ((collapseWs query.toList).filter (fun c => !isCtl c))).filter
    (fun c => !isSpecialChar c)))).asString

/-! ## Regular expressions for the injection patterns

A small regex evaluator by Brzozowski derivatives, enough for the fixed
`INJECTION_PATTERNS` list of guardrails.py (literals, `\s`, `.`, `+`, `*`,
`?`, alternation). -/

inductive Rx where
  | emp : Rx
  | eps : Rx
  | cls (p : Char → Bool) : Rx
  | seq (a b : Rx) : Rx
  | alt (a b : Rx) : Rx
  | star (a : Rx) : Rx

def Rx.nullable : Rx → Bool
  | .emp => false
  | .eps => true
  | .cls _ => false
  | .seq a b => a.nullable && b.nullable
  | .alt a b => a.nullable || b.nullable
  | .star _ => true

def Rx.deriv : Rx → Char → Rx
  | .emp, _ => .emp
  | .eps, _ => .emp
  | .cls p, c => if p c then .eps else .emp
  | .seq a b, c =>
    if a.nullable then .alt (.seq (a.deriv c) b) (b.deriv c)
    else .seq (a.deriv c) b
  | .alt a b, c => .alt (a.deriv c) (b.deriv c)
  | .star a, c => .seq (a.deriv c) (.star a)

/-- Does `r` accept some prefix of `s`? -/
def Rx.acceptsPrefix : Rx → List Char → Bool
  | r, [] => r.nullable
  | r, c :: cs => r.nullable || (r.deriv c).acceptsPrefix cs

/-- `re.search`: does `r` match somewhere inside `s`? -/
def Rx.search (r : Rx) : List Char → Bool
  | [] => r.nullable
  | c :: cs => r.acceptsPrefix (c :: cs) || r.search cs

/-- A literal character. -/
def Rx.chr (c : Char) : Rx := .cls (· = c)

/-- A literal string. -/
def Rx.lit (s : String) : Rx := s.toList.foldr (fun c r => .seq (.chr c) r) .eps

/-- `\s` (Python `re` whitespace). -/
def Rx.wsCls : Rx := .cls pyIsSpace

/-- `\s+`. -/
def Rx.wsPlus : Rx := .seq Rx.wsCls (.star Rx.wsCls)

/-- `\s*`. -/
def Rx.wsStar : Rx := .star Rx.wsCls

/-- `.` (any character but a newline). -/
def Rx.dot : Rx := .cls (· ≠ '\n')

/-- `.*`. -/
def Rx.dotStar : Rx := .star Rx.dot

/-- `r?`. -/
def Rx.opt (r : Rx) : Rx := .alt .eps r

/-- `INJECTION_PATTERNS` (guardrails.py lines 38–53). -/
def INJECTION_PATTERNS : List Rx :=
  [ .seq (Rx.lit "ignore") (.seq Rx.wsPlus (.seq Rx.dotStar
      (.seq (.alt (Rx.lit "previous") (.alt (Rx.lit "above") (Rx.lit "all")))
        (.seq Rx.dotStar (.seq (Rx.lit "instruction") (Rx.opt (Rx.chr 's'))))))),
    .seq (Rx.lit "you") (.seq Rx.wsPlus (.seq (Rx.lit "are") (.seq Rx.wsPlus (Rx.lit "now")))),
    .seq (Rx.lit "new") (.seq Rx.wsPlus (.seq (Rx.lit "instruction") (Rx.opt (Rx.chr 's')))),
    .seq (Rx.lit "system") (.seq Rx.wsStar (.seq (Rx.chr ':') (.seq Rx.wsStar (Rx.lit "you")))),
    .seq (Rx.chr '<') (.seq Rx.wsStar (.seq (Rx.lit "script") (.seq Rx.wsStar (Rx.chr '>')))),
    Rx.lit "javascript:",
    .seq (Rx.lit "eval") (.seq Rx.wsStar (Rx.chr '(')),
    .seq (Rx.lit "exec") (.seq Rx.wsStar (Rx.chr '(')),
    Rx.lit "__import__",
    .seq (Rx.lit "forget") (.seq Rx.wsPlus (.alt (Rx.lit "everything") (Rx.lit "all"))),
    .seq (Rx.lit "disregard") (.seq Rx.wsPlus (.alt (Rx.lit "previous") (Rx.lit "above"))),
    .seq (Rx.lit "override") (.seq Rx.wsPlus (Rx.lit "your")),
    .seq (Rx.lit "new") (.seq Rx.wsPlus (Rx.lit "role")),
    .seq (Rx.lit "act") (.seq Rx.wsPlus (.seq (Rx.lit "as") (.seq Rx.wsPlus (Rx.lit "if")))) ]

/-- Does the lowercased query match one of the injection patterns
(guardrails.py lines 95–97)? -/
def matchesInjection (query : String) : Bool :=
  INJECTION_PATTERNS.any (fun r => r.search (pyLower query).toList)

/-- `check_input_safety` (guardrails.py lines 80–101): length bounds on the
stripped query, then the injection-pattern scan. -/
def check_input_safety (query : String) : Except String Unit :=
  let length := (pyStripStr query).length
  if length < 3 then Except.error "Query too short (min 3 chars)"
  else if length > 500 then Except.error "Query too long (max 500 chars)"
  else if matchesInjection query then
    Except.error "Query contains suspicious patterns and was blocked for security"
  else Except.ok ()

/-- `validate_input` (guardrails.py lines 254–287): reject `""`, run the
safety checks on the raw query, then return the sanitized query. -/
def validate_input (query : String) : Except String String :=
  if query = "" then Except.error "Query must be a non-empty string"
  else
    match check_input_safety query with
    | Except.error e => Except.error e
    | Except.ok _ => Except.ok (sanitize_input query)


/-! ## Python values (JSON documents / dicts)

`PyJson` models the Python values that `json.loads` produces and that the
output guardrails and Pydantic validators consume.  Floats are modelled
exactly as decimals `mant / 10 ^ exp`: in this code base they are only
parsed, compared and sorted, never subjected to arithmetic that rounds. -/

/-- A decimal number `mant / 10 ^ exp`. -/
structure PyNum where
  mant : Int
  exp : Nat
deriving DecidableEq

/-- Value-level `a ≤ b` on decimals (cross-multiplied). -/
def PyNum.le (a b : PyNum) : Bool :=
  a.mant * 10 ^ b.exp ≤ b.mant * 10 ^ a.exp

/-- The integer value of a decimal, when it is one (Pydantic's lax coercion
of `5.0` to the `int` 5). -/
def PyNum.toInt? (a : PyNum) : Option Int :=
  if (10 ^ a.exp : Int) ∣ a.mant then some (a.mant / 10 ^ a.exp) else none

inductive PyJson where
  | null : PyJson
  | bool (b : Bool) : PyJson
  | num (q : PyNum) : PyJson
  | str (s : String) : PyJson
  | arr (xs : List PyJson) : PyJson
  | obj (fields : List (String × PyJson)) : PyJson

/-- `d[k]` for a dict; `none` when the key is absent. -/
def PyJson.lookup : PyJson → String → Option PyJson
  | .obj fs, k => fs.lookup k
  | _, _ => none

/-- `d.get(k, default)`. -/
def PyJson.getD (j : PyJson) (k : String) (d : PyJson) : PyJson :=
  (j.lookup k).getD d

/-- `pre` is a prefix of `s` (`s.startswith(pre)`). -/
def pyStartsWith (s pre : String) : Bool :=
  pre.toList.isPrefixOf s.toList

/-! ## Output and context guardrails -/

/-- `str(value).strip()`-style access used by `check_output_structure`:
the looked-up field must be a string (a non-string would make the Python
`.strip()` call raise, modelled as a `"TypeError"` failure). -/
def PyJson.getStrD (j : PyJson) (k : String) : Except String String :=
  match j.lookup k with
  | some (.str s) => Except.ok s
  | some _ => Except.error "TypeError"
  | none => Except.ok ""

/-- `len(d.get(k, []))` where the value must support `len`. -/
def PyJson.getLenD (j : PyJson) (k : String) : Except String Nat :=
  match j.lookup k with
  | some (.arr xs) => Except.ok xs.length
  | some (.str s) => Except.ok s.length
  | some _ => Except.error "TypeError"
  | none => Except.ok 0

/-- `d.get(k, [])` as a list of strings, as consumed by the reference
checks (each element is fed to `.startswith`, so it must be a string). -/
def PyJson.getStrListD (j : PyJson) (k : String) : Except String (List String) :=
  match j.lookup k with
  | some (.arr xs) =>
    xs.foldr (fun x acc => do
      let rest ← acc
      match x with
      | .str s => Except.ok (s :: rest)
      | _ => Except.error "TypeError") (Except.ok [])
  | some _ => Except.error "TypeError"
  | none => Except.ok []

/-- `check_output_structure` (guardrails.py lines 111–146): required
top-level keys, required answer keys, title/summary/steps quality checks
(the two `for key in ...` loops over fixed key lists are unrolled). -/
def check_output_structure (answer_dict : PyJson) : Except String Unit :=
  if (answer_dict.lookup "mode").isNone then Except.error "Missing required field: mode"
  else if (answer_dict.lookup "answer").isNone then Except.error "Missing required field: answer"
  else if (answer_dict.lookup "links").isNone then Except.error "Missing required field: links"
  else if (answer_dict.lookup "media").isNone then Except.error "Missing required field: media"
  else
    let answer := answer_dict.getD "answer" (.obj [])
    if (answer.lookup "title").isNone then
      Except.error "Missing required answer field: title"
    else if (answer.lookup "summary").isNone then
      Except.error "Missing required answer field: summary"
    else if (answer.lookup "steps").isNone then
      Except.error "Missing required answer field: steps"
    else if (answer.lookup "verification").isNone then
      Except.error "Missing required answer field: verification"
    else
      match answer.getStrD "title" with
      | Except.error e => Except.error e
      | Except.ok title =>
        if (pyStripStr title).length < 5 then Except.error "Title too short or empty"
        else
          match answer.getStrD "summary" with
          | Except.error e => Except.error e
          | Except.ok summary =>
            if (pyStripStr summary).length < 10 then
              Except.error "Summary too short or empty"
            else if (pyStripStr summary).length > 2000 then
              Except.error "Answer too long (max 2000 chars)"
            else
              match answer.getLenD "steps" with
              | Except.error e => Except.error e
              | Except.ok steps =>
                if steps > 10 then Except.error "Too many steps (max 10)"
                else Except.ok ()

/-- The per-link check of `check_output_references` (guardrails.py
lines 172–176). -/
def checkLinksLoop (allowed_pages : List String) (strict : Bool) :
    List String → Except String Unit
  | [] => Except.ok ()
  | link :: rest =>
    if ¬ pyStartsWith link "/media/" then
      Except.error ("Invalid link format: " ++ link)
    else if strict ∧ ¬ allowed_pages.contains link then
      Except.error ("Invalid page reference: " ++ link)
    else checkLinksLoop allowed_pages strict rest

/-- The per-image check of `check_output_references` (guardrails.py
lines 183–188): diagram references and `/media/` paths are allowed, and the
strict membership test is skipped for `"Diagram "`-prefixed entries. -/
def checkMediaLoop (allowed_media : List String) (strict : Bool) :
    List String → Except String Unit
  | [] => Except.ok ()
  | img :: rest =>
    if ¬ (pyStartsWith img "/media/" ∨ pyStartsWith img "Diagram ") then
      Except.error ("Invalid media format: " ++ img)
    else if strict ∧ ¬ pyStartsWith img "Diagram " ∧ ¬ allowed_media.contains img then
      Except.error ("Invalid media reference: " ++ img)
    else checkMediaLoop allowed_media strict rest

/-- `check_output_references` (guardrails.py lines 149–188). -/
def check_output_references (answer_dict : PyJson)
    (allowed_pages allowed_media : List String) (strict : Bool) :
    Except String Unit :=
  match answer_dict.getStrListD "links" with
  | Except.error e => Except.error e
  | Except.ok links =>
    if links.length > 10 then Except.error "Too many links (max 10)"
    else
      match checkLinksLoop allowed_pages strict links with
      | Except.error e => Except.error e
      | Except.ok _ =>
        match (answer_dict.getD "media" (.obj [])).getStrListD "images" with
        | Except.error e => Except.error e
        | Except.ok media_images =>
          if media_images.length > 5 then Except.error "Too many media files (max 5)"
          else checkMediaLoop allowed_media strict media_images

/-- `validate_output` (guardrails.py lines 290–324): structure check then
reference check (the exception is logged and re-raised unchanged). -/
def validate_output (answer_dict : PyJson)
    (allowed_pages allowed_media : List String) (strict : Bool) :
    Except String Unit :=
  match check_output_structure answer_dict with
  | Except.error e => Except.error e
  | Except.ok _ => check_output_references answer_dict allowed_pages allowed_media strict

/-- `check_context` (guardrails.py lines 196–213): empty and maximum-length
checks; a context below the 50-char minimum only logs a warning. -/
def check_context (context : String) : Except String Unit :=
  if context = "" then Except.error "Context is empty"
  else if context.length > 50000 then
    Except.error "Context too long (max 50000 chars)"
  else Except.ok ()

/-- `validate_context` (guardrails.py lines 327–350).  The Python function
body has no `return` statement, so on success it returns `None`, modelled as
the unit value: no string is produced. -/
def validate_context (context : String) : Except String Unit :=
  check_context context

/-- SimpleRAG.answer lines 99–107 (simple_rag.py): the value
`sanitized_context = validate_context(context)` that is then passed as the
generator's `context` argument.  Since `validate_context` returns `None` on
success, the generator always receives `none`, never a sanitized string. -/
def simpleRAG_contextArg (context : String) : Except String (Option String) :=
  (validate_context context).map (fun _ => none)

/-! ## Pydantic models (models.py) -/

structure AnswerContent where
  title : String
  summary : String
  steps : List String
  verification : List String
deriving DecidableEq

structure Media where
  images : List String
deriving DecidableEq

structure AnswerResponse where
  mode : String := "answer"
  answer : AnswerContent
  links : List String
  media : Media
  latency_ms : Nat := 0
deriving DecidableEq

structure PassageScore where
  id : Int
  score : PyNum
deriving DecidableEq

structure RerankResult where
  results : List PassageScore
deriving DecidableEq

/-- `result.model_dump()`. -/
def AnswerResponse.model_dump (r : AnswerResponse) : PyJson :=
  .obj [("mode", .str r.mode),
        ("answer", .obj [("title", .str r.answer.title),
                         ("summary", .str r.answer.summary),
                         ("steps", .arr (r.answer.steps.map .str)),
                         ("verification", .arr (r.answer.verification.map .str))]),
        ("links", .arr (r.links.map .str)),
        ("media", .obj [("images", .arr (r.media.images.map .str))]),
        ("latency_ms", .num ⟨r.latency_ms, 0⟩)]

/-! ## utils.py -/

/-- `context_is_relevant` (utils.py lines 32–43): the lowercased
whitespace-separated word sets of query and context must intersect. -/
def context_is_relevant (query context : String) : Bool :=
  (pySplitWords (pyLower query).toList).any
    (fun w => (pySplitWords (pyLower context).toList).contains w)


/-! ## `json.loads`

Modelled from the spec: the Python standard-library JSON decoder (strict
grammar, complete parse, `ValueError` on trailing garbage), which is not part
of the repository.  A fuel-driven recursive-descent parser; every recursive
call consumes at least one character first, so `length + 1` fuel suffices. -/

/-- JSON insignificant whitespace. -/
def skipWs (cs : List Char) : List Char :=
  cs.dropWhile (fun c => c = ' ' || c = '\t' || c = '\n' || c = '\r')

/-- Parse the remainder of a JSON string literal (after the opening quote),
handling the single-character escapes. -/
def parseStrAux : List Char → Option (List Char × List Char)
  | [] => none
  | '"' :: rest => some ([], rest)
  | '\\' :: e :: rest => do
    let c ← match e with
      | '"' => some '"'
      | '\\' => some '\\'
      | '/' => some '/'
      | 'n' => some '\n'
      | 't' => some '\t'
      | 'r' => some '\r'
      | 'b' => some '\x08'
      | 'f' => some '\x0c'
      | _ => none
    let (s, r) ← parseStrAux rest
    some (c :: s, r)
  | c :: rest => do
    let (s, r) ← parseStrAux rest
    some (c :: s, r)

/-- The numeric value of a digit run. -/
def digitsVal (ds : List Char) : Nat :=
  ds.foldl (fun n c => 10 * n + (c.toNat - 48)) 0

/-- Parse a JSON number (`-?int[.frac][e exp]`). -/
def parseJsonNum (cs : List Char) : Option (PyNum × List Char) :=
  let (sign, cs1) : Int × List Char :=
    match cs with
    | '-' :: r => (-1, r)
    | _ => (1, cs)
  let ip := cs1.takeWhile Char.isDigit
  let cs2 := cs1.dropWhile Char.isDigit
  if ip = [] then none
  else
    match cs2 with
    | '.' :: r =>
      let fp := r.takeWhile Char.isDigit
      if fp = [] then none
      else
        finishExp (sign * ((digitsVal ip : Int) * 10 ^ fp.length + (digitsVal fp : Int)))
          fp.length (r.dropWhile Char.isDigit)
    | _ => finishExp (sign * (digitsVal ip : Int)) 0 cs2
where
  finishExp (mant : Int) (exp : Nat) (rest : List Char) : Option (PyNum × List Char) :=
    match rest with
    | 'e' :: r => doExp mant exp r
    | 'E' :: r => doExp mant exp r
    | _ => some (⟨mant, exp⟩, rest)
  doExp (mant : Int) (exp : Nat) (r : List Char) : Option (PyNum × List Char) :=
    let (eneg, r1) : Bool × List Char :=
      match r with
      | '-' :: r' => (true, r')
      | '+' :: r' => (false, r')
      | _ => (false, r)
    let ed := r1.takeWhile Char.isDigit
    if ed = [] then none
    else
      some (if eneg then ⟨mant, exp + digitsVal ed⟩
            else ⟨mant * 10 ^ digitsVal ed, exp⟩, r1.dropWhile Char.isDigit)

mutual

/-- Parse one JSON value, returning it with the unconsumed remainder. -/
def parseVal : Nat → List Char → Option (PyJson × List Char)
  | 0, _ => none
  | f + 1, cs =>
    match skipWs cs with
    | 'n' :: 'u' :: 'l' :: 'l' :: r => some (.null, r)
    | 't' :: 'r' :: 'u' :: 'e' :: r => some (.bool true, r)
    | 'f' :: 'a' :: 'l' :: 's' :: 'e' :: r => some (.bool false, r)
    | '"' :: r => do
      let (s, r2) ← parseStrAux r
      some (.str s.asString, r2)
    | '[' :: r =>
      match skipWs r with
      | ']' :: r2 => some (.arr [], r2)
      | _ => do
        let (x, r2) ← parseVal f r
        let (xs, r3) ← parseArrTail f r2
        some (.arr (x :: xs), r3)
    | '\x7b' :: r =>
      match skipWs r with
      | '\x7d' :: r2 => some (.obj [], r2)
      | _ => do
        let (kv, r2) ← parseMember f r
        let (kvs, r3) ← parseObjTail f r2
        some (.obj (kv :: kvs), r3)
    | cs' => do
      let (q, r) ← parseJsonNum cs'
      some (.num q, r)

/-- Parse `(',' value)* ']'` after an array element. -/
def parseArrTail : Nat → List Char → Option (List PyJson × List Char)
  | 0, _ => none
  | f + 1, cs =>
    match skipWs cs with
    | ']' :: r => some ([], r)
    | ',' :: r => do
      let (x, r2) ← parseVal f r
      let (xs, r3) ← parseArrTail f r2
      some (x :: xs, r3)
    | _ => none

/-- Parse one `"key": value` object member. -/
def parseMember : Nat → List Char → Option ((String × PyJson) × List Char)
  | 0, _ => none
  | f + 1, cs =>
    match skipWs cs with
    | '"' :: r => do
      let (k, r2) ← parseStrAux r
      match skipWs r2 with
      | ':' :: r3 => do
        let (v, r4) ← parseVal f r3
        some ((k.asString, v), r4)
      | _ => none
    | _ => none

/-- Parse `(',' member)* '}'` after an object member. -/
def parseObjTail : Nat → List Char → Option (List (String × PyJson) × List Char)
  | 0, _ => none
  | f + 1, cs =>
    match skipWs cs with
    | '\x7d' :: r => some ([], r)
    | ',' :: r => do
      let (kv, r2) ← parseMember f r
      let (kvs, r3) ← parseObjTail f r2
      some (kv :: kvs, r3)
    | _ => none

end

/-- `json.loads`: a complete parse of the whole string. -/
def jsonParse (s : String) : Option PyJson := do
  let (v, rest) ← parseVal (s.length + 1) s.toList
  if skipWs rest = [] then some v else none

/-- The brace-extraction fallback `raw[raw.find("{") : raw.rfind("}") + 1]`
(generator.py lines 153–156 and reranker.py line 78), including Python's
negative-index slicing behaviour when `find` returns `-1`. -/
def braceExtract (raw : String) : String :=
  let cs := raw.toList
  let start : Nat :=
    match cs.findIdx? (· = '\x7b') with
    | some i => i
    | none => cs.length - 1
  let stop : Nat :=
    match cs.reverse.findIdx? (· = '\x7d') with
    | some j => cs.length - j
    | none => 0
  ((cs.drop start).take (stop - start)).asString


/-- Modelled from the spec: the Python `float(str)` builtin as applied to the
plain decimal literals this code base feeds it (optional sign, digits,
optional fraction; leading/trailing whitespace stripped; anything else
raises, modelled as `none`). -/
def pyFloat (s : String) : Option PyNum :=
  go (pyStrip s.toList)
where
  go (cs : List Char) : Option PyNum :=
    let (sign, cs1) : Int × List Char :=
      match cs with
      | '-' :: r => (-1, r)
      | '+' :: r => (1, r)
      | _ => (1, cs)
    let ip := cs1.takeWhile Char.isDigit
    let cs2 := cs1.dropWhile Char.isDigit
    match cs2 with
    | '.' :: r =>
      let fp := r.takeWhile Char.isDigit
      let r2 := r.dropWhile Char.isDigit
      if r2 = [] ∧ (ip ≠ [] ∨ fp ≠ []) then
        some ⟨sign * ((digitsVal ip : Int) * 10 ^ fp.length + (digitsVal fp : Int)), fp.length⟩
      else none
    | [] => if ip ≠ [] then some ⟨sign * (digitsVal ip : Int), 0⟩ else none
    | _ => none


/-! ## Pydantic validation (models.py) -/

/-- A Pydantic `List[str]` field value. -/
def strListOfJson : PyJson → Option (List String)
  | .arr xs =>
    xs.foldr (fun x acc => do
      let rest ← acc
      match x with
      | .str s => some (s :: rest)
      | _ => none) (some [])
  | _ => none

/-- Pydantic validation of `AnswerContent`. -/
def answerContentOfJson : PyJson → Option AnswerContent
  | j => do
    let .str title ← j.lookup "title" | none
    let .str summary ← j.lookup "summary" | none
    let stepsJ ← j.lookup "steps"
    let steps ← strListOfJson stepsJ
    let verJ ← j.lookup "verification"
    let verification ← strListOfJson verJ
    some { title := title, summary := summary, steps := steps, verification := verification }

/-- Pydantic validation of `AnswerResponse(**json_output)` (models.py lines
18–23): `answer`, `links` and `media` are required, `mode` defaults to
`"answer"` and `latency_ms` to `0`. -/
def answerResponseOfJson (j : PyJson) : Except String AnswerResponse :=
  match go with
  | some r => Except.ok r
  | none => Except.error "Invalid answer structure"
where
  go : Option AnswerResponse := do
    let mode ← match j.lookup "mode" with
      | none => some "answer"
      | some (.str m) => some m
      | some _ => none
    let answerJ ← j.lookup "answer"
    let answer ← answerContentOfJson answerJ
    let linksJ ← j.lookup "links"
    let links ← strListOfJson linksJ
    let mediaJ ← j.lookup "media"
    let images ← strListOfJson (mediaJ.getD "images" (.arr []))
    let imagesPresent ← match mediaJ with
      | .obj fs => if (fs.lookup "images").isSome then some images else none
      | _ => none
    let latency ← match j.lookup "latency_ms" with
      | none => some 0
      | some (.num q) => do
        let i ← q.toInt?
        if 0 ≤ i then some i.toNat else none
      | some _ => none
    some { mode := mode, answer := answer, links := links,
           media := { images := imagesPresent }, latency_ms := latency }

/-- Pydantic validation of `RerankResult(**data)` (models.py lines 26–32):
`results` is a list of `{id: int, score: float}` objects.  No range
constraint on either field is declared by the model. -/
def rerankResultOfJson (j : PyJson) : Except String RerankResult :=
  match go with
  | some r => Except.ok r
  | none => Except.error "Invalid rerank structure"
where
  goOne : PyJson → Option PassageScore
    | .obj fs => do
      let .num idQ ← fs.lookup "id" | none
      let idI ← idQ.toInt?
      let .num score ← fs.lookup "score" | none
      some { id := idI, score := score }
    | _ => none
  go : Option RerankResult := do
    let resultsJ ← j.lookup "results"
    let .arr xs := resultsJ | none
    let results ← xs.foldr (fun x acc => do
      let rest ← acc
      let p ← goOne x
      some (p :: rest)) (some [])
    some { results := results }

/-! ## Chunks and sorting -/

/-- A chunk record as stored in the persisted metadata and consumed by the
retriever (`page`, `text`, `media`, `diagram_ids`, `is_table`). -/
structure Chunk where
  page : Nat
  text : String
  media : List String
  diagram_ids : List String
  is_table : Bool := false
deriving DecidableEq

/-- Insert `x` before the first element `y` with `le x y`. -/
def insertLe (le : α → α → Bool) (x : α) : List α → List α
  | [] => [x]
  | y :: ys => if le x y then x :: y :: ys else y :: insertLe le x ys

/-- Stable insertion sort: for a total preorder `le` this computes the same
list as Python's stable `sorted`/`list.sort`, which the source relies on
(`scored.sort(key=..., reverse=True)`, `sorted(ranking.results, ...)`). -/
def sortLe (le : α → α → Bool) : List α → List α
  | [] => []
  | x :: xs => insertLe le x (sortLe le xs)

/-- Descending-by-key stable sort, i.e. Python's
`sorted(l, key=key, reverse=True)`: an element is placed before every later
element whose key is `≤` its own, so ties keep their original order. -/
def pySortDescBy (key : α → PyNum) : List α → List α :=
  sortLe (fun a b => (key b).le (key a))

/-- Code-point lexicographic `≤` on strings (Python string comparison). -/
def charListLe : List Char → List Char → Bool
  | [], _ => true
  | _ :: _, [] => false
  | a :: as, b :: bs =>
    if a.toNat < b.toNat then true
    else if b.toNat < a.toNat then false
    else charListLe as bs

/-- `sorted(set(l))` for strings: the distinct elements in ascending
lexicographic order. -/
def pySortedSet (l : List String) : List String :=
  sortLe (fun a b => charListLe a.toList b.toList) l.dedup

/-! ## LlamaReranker (reranker.py) -/

/-- `LlamaReranker.score_passages` (reranker.py lines 20–85) given the raw
text `raw` the provider returned for its single batched call.  The prompt
built from `query` and `passages` (each text truncated to 1000 characters)
only influences what the provider answers, so the function's result depends
only on `raw`: the response is brace-extracted, parsed as JSON (a failure
re-raises the decode error) and validated as a `RerankResult`.  No check
relates the scored ids to `passages`. -/
def score_passages (query : String) (passages : List (Nat × String)) (raw : String) :
    Except String RerankResult :=
  match jsonParse (braceExtract raw) with
  | none => Except.error "JSONDecodeError"
  | some data => rerankResultOfJson data

/-! ## Retriever (retriever.py) -/

/-- `float(response.strip())` with parse failure mapped to a 0.0 score
(retriever.py lines 77–81). -/
def parsedScore (raw : String) : PyNum :=
  (pyFloat (pyStripStr raw)).getD ⟨0, 0⟩

/-- The retry loop of `Retriever.rerank` for one candidate (retriever.py
lines 68–99): `calls idx` is the provider's response to attempt `idx`
(`none` = raised), at most `attempts` calls are made, a parsed (or 0.0)
score is produced on the first delivered response, and 0.0 is used when all
attempts raised.  Returns the score and the number of provider calls. -/
def scoreAttempts (calls : Nat → Option String) : Nat → Nat → PyNum × Nat
  | 0, _ => (⟨0, 0⟩, 0)
  | 1, idx =>
    match calls idx with
    | some raw => (parsedScore raw, 1)
    | none => (⟨0, 0⟩, 1)
  | k + 2, idx =>
    match calls idx with
    | some raw => (parsedScore raw, 1)
    | none =>
      let (s, c) := scoreAttempts calls (k + 1) (idx + 1)
      (s, c + 1)

/-- `Retriever.rerank` (retriever.py lines 29–112): one provider call per
candidate (with up to `maxRetries` retries each), stable descending sort by
score, truncation to `top_k`.  `provider i a` is the provider's response to
attempt `a` for candidate `i`; the second component counts provider calls. -/
def rerank (query : String) (faiss_results : List Chunk) (top_k : Nat)
    (provider : Nat → Nat → Option String) (maxRetries : Nat) :
    Except String (List Chunk) × Nat :=
  if query = "" then (Except.error "Query cannot be empty", 0)
  else if faiss_results = [] then (Except.error "FAISS results cannot be empty", 0)
  else if top_k = 0 then (Except.error "top_k must be positive", 0)
  else
    let scored := faiss_results.mapIdx
      (fun i r => ((scoreAttempts (provider i) (maxRetries + 1) 0).1, r))
    let calls := (faiss_results.mapIdx
      (fun i _ => (scoreAttempts (provider i) (maxRetries + 1) 0).2)).sum
    (Except.ok ((pySortDescBy Prod.fst scored).take top_k |>.map Prod.snd), calls)

/-- The `f"[Page {r['page']}]\n{r['text']}"` block for one chunk. -/
def chunkBlock (r : Chunk) : String :=
  "[Page " ++ toString r.page ++ "]\n" ++ r.text

/-- The `"\n\n---\n\n".join(...)` context assembly (retriever.py
lines 155–157). -/
def contextOf (reranked : List Chunk) : String :=
  String.intercalate "\n\n---\n\n" (reranked.map chunkBlock)

/-- `Retriever.retrieve_with_reranking` (retriever.py lines 114–180) given
the FAISS search result for the query.  `ok none` models the
`(None, None, None)` irrelevance/empty signals; `PDFProcessor.ensure_images_exist`
only touches the filesystem and swallows its own errors, so it has no effect
here.  The returned triple is `(context_text, pages, media_files)`. -/
def retrieve_with_reranking (query : String) (faiss_results : List Chunk)
    (provider : Nat → Nat → Option String) (maxRetries : Nat) :
    Except String (Option (String × List String × List String)) :=
  if faiss_results = [] then Except.ok none
  else
    match (rerank query faiss_results 5 provider maxRetries).1 with
    | Except.error e => Except.error e
    | Except.ok reranked =>
      if reranked = [] then Except.ok none
      else
        let context_text := contextOf reranked
        let media_files := pySortedSet (reranked.flatMap (fun r => r.diagram_ids))
        let pages := pySortedSet (reranked.flatMap (fun r => r.media))
        if context_is_relevant query context_text then
          Except.ok (some (context_text, pages, media_files))
        else
          Except.ok none

/-! ## AnswerGenerator (generator.py) -/

/-- `AnswerGenerator.generate_structured_answer` (generator.py lines
89–181) given the raw text `raw_output` the provider returned: empty-input
checks, `json.loads` with the brace-extraction fallback, Pydantic
validation, and the validated response returned as-is — the
`validate_answer_against_context` reference/hallucination guard (lines
170–173) is commented out in the source, so nothing filters or replaces the
validated output. -/
def generate_structured_answer (query context : String)
    (pages media_files : List String) (raw_output : String) :
    Except String AnswerResponse :=
  if pyStripStr query = "" then Except.error "Query cannot be empty"
  else if pyStripStr context = "" then Except.error "Context cannot be empty"
  else
    match jsonParse raw_output with
    | some j => answerResponseOfJson j
    | none =>
      match jsonParse (braceExtract raw_output) with
      | some j => answerResponseOfJson j
      | none => Except.error "Failed to parse LLM output as JSON"

/-! ## The /chat/answer endpoint (api.py) -/

/-- The canonical "No Information Found" response built by the endpoint
when retrieval signals no relevant context (api.py lines 101–112). -/
def noInfoResponse (latency : Nat) : AnswerResponse :=
  { mode := "answer",
    answer := { title := "No Information Found",
                summary := "No relevant information found in the document for your query.",
                steps := ["Try rephrasing your question", "Use different keywords"],
                verification := ["Retrieved content was not relevant to the query"] },
    links := [],
    media := { images := [] },
    latency_ms := latency }

/-- `answer_endpoint` (api.py lines 56–163).  External inputs: the FAISS
search result, the reranker provider responses, the generator provider
response (`none` = the Groq call raised after which the endpoint returns
500) and the measured latency.  Errors are `(HTTP status, detail)`.  A
context-guardrail violation is logged and ignored (lines 114–119), and the
output guardrail runs in lenient mode (line 136). -/
def answer_endpoint (question : String) (faiss_results : List Chunk)
    (provider : Nat → Nat → Option String) (maxRetries : Nat)
    (gen_raw : Option String) (elapsed_ms : Nat) :
    Except (Nat × String) AnswerResponse :=
  match validate_input question with
  | Except.error e => Except.error (400, e)
  | Except.ok sanitized_query =>
    match retrieve_with_reranking sanitized_query faiss_results provider maxRetries with
    | Except.error e => Except.error (500, "Failed to retrieve context: " ++ e)
    | Except.ok none => Except.ok (noInfoResponse elapsed_ms)
    | Except.ok (some (context, pages, media_files)) =>
      match gen_raw with
      | none => Except.error (500, "Failed to generate answer: Failed to call Groq API")
      | some raw =>
        match generate_structured_answer sanitized_query context pages media_files raw with
        | Except.error e => Except.error (500, "Failed to generate answer: " ++ e)
        | Except.ok result =>
          match validate_output result.model_dump pages media_files false with
          | Except.error e =>
            Except.error (500, "Generated answer failed validation: " ++ e)
          | Except.ok _ => Except.ok { result with latency_ms := elapsed_ms }

/-! ## SimpleRAG / hybrid search selection (simple_rag.py, vector_store.py) -/

/-- `VectorStoreManager.hybrid_search` with `use_reranker=False`
(vector_store.py lines 95–127) given the ensemble retriever's document
list: truncate to `candidate_k` while converting, then return
`results[:top_k]`. -/
def hybridCandidatesNoRerank (docs : List Chunk) (top_k candidate_k : Nat) : List Chunk :=
  (docs.take candidate_k).take top_k

/-- `l[i]` with Python's negative-index semantics. -/
def pyIndex (l : List α) (i : Int) : Option α :=
  if 0 ≤ i then l.get? i.toNat
  else if (-i).toNat ≤ l.length then l.get? (l.length - (-i).toNat)
  else none

/-- A list comprehension whose element expression may raise (`IndexError`),
modelled as `none` for the whole list. -/
def pyListMap (f : α → Option β) : List α → Option (List β)
  | [] => some []
  | x :: xs =>
    match f x with
    | none => none
    | some y =>
      match pyListMap f xs with
      | none => none
      | some ys => some (y :: ys)

/-- The selection step shared by `SimpleRAG.retrieve` (simple_rag.py lines
62–65) and `hybrid_search` with `use_reranker=True` (vector_store.py lines
119–122): sort the reranker's scored ids descending by score (stable),
truncate to `top_k`, and index the candidate list by each id.  `none`
models the `IndexError` raised when an id is out of range. -/
def selectReranked (results : List Chunk) (ranking : RerankResult) (top_k : Nat) :
    Option (List Chunk) :=
  pyListMap (fun item => pyIndex results item.id)
    ((pySortDescBy PassageScore.score ranking.results).take top_k)

/-! ## Spec-side predicates and concrete test data -/

/-- The string contains an HTML tag: a substring matching `<[^>]+>`. -/
def HasTagSub (s : List Char) : Prop :=
  ∃ a b c, s = a ++ '<' :: (b ++ '>' :: c) ∧ b ≠ [] ∧ '>' ∉ b

/-- Two adjacent whitespace characters somewhere (a whitespace run that was
not collapsed to a single space). -/
def adjacentWs : List Char → Bool
  | a :: b :: r => (pyIsSpace a && pyIsSpace b) || adjacentWs (b :: r)
  | _ => false

/-- A retrieved chunk used as concrete test data. -/
def fireChunk : Chunk :=
  { page := 5, text := "fire doors must close automatically",
    media := ["/media/page_5.png"], diagram_ids := [] }

/-- A second chunk used as concrete test data. -/
def exitChunk : Chunk :=
  { page := 7, text := "exit routes must be kept clear",
    media := ["/media/page_7.png"], diagram_ids := [] }

/-- A generator response whose `links` entry is not among the allowed pages
of the retrieved chunks. -/
def c1Raw : String :=
  "\x7b\"mode\": \"answer\", \"answer\": \x7b\"title\": \"Fire door closing\", \"summary\": \"Fire doors must close automatically.\", \"steps\": [\"Close the door\"], \"verification\": [\"Page 5 describes closers\"]\x7d, \"links\": [\"/media/page_999.png\"], \"media\": \x7b\"images\": []\x7d\x7d"

/-- The parsed and validated form of `c1Raw`. -/
def c1Resp : AnswerResponse :=
  { mode := "answer",
    answer := { title := "Fire door closing",
                summary := "Fire doors must close automatically.",
                steps := ["Close the door"],
                verification := ["Page 5 describes closers"] },
    links := ["/media/page_999.png"], media := { images := [] }, latency_ms := 0 }

/-- A generator response whose summary is exactly a hedge phrase, with
populated steps and links. -/
def c2Raw : String :=
  "\x7b\"mode\": \"answer\", \"answer\": \x7b\"title\": \"Fire extinguisher use\", \"summary\": \"This is based on common knowledge.\", \"steps\": [\"Pull the pin\", \"Aim at the base\"], \"verification\": [\"General guidance\"]\x7d, \"links\": [\"/media/page_5.png\"], \"media\": \x7b\"images\": []\x7d\x7d"

/-- The JSON document `json.loads` produces for `c2Raw`. -/
def c2Json : PyJson :=
  .obj [("mode", .str "answer"),
        ("answer", .obj [("title", .str "Fire extinguisher use"),
                         ("summary", .str "This is based on common knowledge."),
                         ("steps", .arr [.str "Pull the pin", .str "Aim at the base"]),
                         ("verification", .arr [.str "General guidance"])]),
        ("links", .arr [.str "/media/page_5.png"]),
        ("media", .obj [("images", .arr [])])]

/-- A reranker provider response scoring id 5 although only one candidate
(index 0) was sent. -/
def c5Raw : String :=
  "\x7b\"results\": [\x7b\"id\": 5, \"score\": 0.9\x7d]\x7d"

/-- An output dict whose only media image is `"Diagram D6"`, with every
other field structurally valid. -/
def c6Dict : PyJson :=
  .obj [("mode", .str "answer"),
        ("answer", .obj [("title", .str "Diagram reference answer"),
                         ("summary", .str "The relevant diagram is referenced below."),
                         ("steps", .arr [.str "Check the diagram"]),
                         ("verification", .arr [.str "Diagram D6 supports this"])]),
        ("links", .arr []),
        ("media", .obj [("images", .arr [.str "Diagram D6"])])]

/-- A well-formed retrieved context. -/
def c3Context : String :=
  "Fire doors must be kept closed and their seals must remain intact at all times."

/-- reranker.py lines 64–72: the body of `score_passages` executes exactly
one `chat.completions.create` call (straight-line code, no loop over the
passages), so the number of provider calls per invocation is 1 however many
passages are scored. -/
def score_passages_calls (query : String) (passages : List (Nat × String)) : Nat := 1

/-! ## Theorems -/

/-- C3 (code bug): for a context that passes every check, `validate_context`
returns the unit value modelling Python `None` — it performs no sanitization
and produces no string — and `SimpleRAG.answer` therefore hands `none` to
the generator as its context, not the (sanitized) context string. -/
theorem C3_validate_context_returns_no_string :
    validate_context c3Context = Except.ok () ∧
    simpleRAG_contextArg c3Context = Except.ok none :=
  ⟨rfl, rfl⟩

/-- C5 counterexample: a provider response scoring id 5 when only candidate
index 0 exists is parsed and returned successfully — `score_passages` does
not fail on ids outside the candidate index range. -/
theorem C5_counterexample :
    score_passages "q" [(0, "only passage")] c5Raw =
      Except.ok { results := [{ id := 5, score := ⟨9, 1⟩ }] } ∧
    ¬ (5 : Int).toNat < ([(0, "only passage")] : List (Nat × String)).length := by
  exact ⟨by decide, by decide⟩

/-- C5 amended: `score_passages` fails exactly when the brace-extracted
response fails to parse as JSON or fails `RerankResult` validation; its
outcome is independent of the candidate list, so an id outside the candidate
index range never causes the call to fail. -/
theorem C5_amended (q q' : String) (ps ps' : List (Nat × String)) (raw : String) :
    score_passages q ps raw = score_passages q' ps' raw ∧
    ((score_passages q ps raw).isOk = true ↔
      ∃ d, jsonParse (braceExtract raw) = some d ∧ (rerankResultOfJson d).isOk = true) := by
  refine ⟨rfl, ?_⟩
  unfold score_passages
  cases hj : jsonParse (braceExtract raw) with
  | none =>
    constructor
    · intro h; exact absurd h (by decide)
    · rintro ⟨d, hd, _⟩; exact absurd hd (by simp)
  | some d =>
    constructor
    · intro h; exact ⟨d, rfl, h⟩
    · rintro ⟨d', hd', h⟩
      obtain rfl : d = d' := by injection hd'
      exact h

/-- C2 counterexample: a parsed generator output whose summary is the hedge
phrase "this is based on common knowledge" is returned as-is with its
populated steps and links — the final result is not the canonical
"No Information Found" answer. -/
theorem C2_counterexample :
    generate_structured_answer "how to use an extinguisher"
      "Use the fire extinguisher near the exits." ["/media/page_5.png"] [] c2Raw =
      Except.ok { mode := "answer",
                  answer := { title := "Fire extinguisher use",
                              summary := "This is based on common knowledge.",
                              steps := ["Pull the pin", "Aim at the base"],
                              verification := ["General guidance"] },
                  links := ["/media/page_5.png"], media := { images := [] },
                  latency_ms := 0 } ∧
    (Rx.lit "this is based on common knowledge").search
      (pyLower "This is based on common knowledge.").toList = true ∧
    "Fire extinguisher use" ≠ "No Information Found" ∧
    (["/media/page_5.png"] : List String) ≠ ([] : List String) := by
  exact ⟨by decide, by decide, by decide, by decide⟩

/-- C2 amended: for non-empty query and context, answer generation returns
the Pydantic-validated parse of the raw model output unchanged — no
hedge-phrase scan, replacement or filtering is applied to it. -/
theorem C2_amended (query context : String) (pages media_files : List String)
    (raw : String) (j : PyJson)
    (hq : ¬ pyStripStr query = "") (hc : ¬ pyStripStr context = "")
    (hj : jsonParse raw = some j) :
    generate_structured_answer query context pages media_files raw =
      answerResponseOfJson j := by
  unfold generate_structured_answer
  rw [if_neg hq, if_neg hc, hj]

/-- C2 witness: the amended theorem applied to the hedge-phrase response. -/
theorem C2_witness :
    generate_structured_answer "how to use an extinguisher"
      "Use the fire extinguisher near the exits." ["/media/page_5.png"] [] c2Raw =
      answerResponseOfJson c2Json :=
  C2_amended "how to use an extinguisher" "Use the fire extinguisher near the exits."
    ["/media/page_5.png"] [] c2Raw c2Json (by decide) (by decide) rfl

/-- C10: queries of acceptable length are still rejected on content — any
query matching one of the fixed injection patterns makes `validate_input`
raise, and such in-bounds queries exist (for example "you are now a
pirate"). -/
theorem C10_content_rejection :
    (∃ q : String, 3 ≤ (pyStripStr q).length ∧ (pyStripStr q).length ≤ 500 ∧
      (validate_input q).isOk = false) ∧
    ∀ q : String, matchesInjection q = true → (validate_input q).isOk = false := by
  constructor
  · exact ⟨"you are now a pirate", by decide, by decide, by decide⟩
  · intro q hq
    by_cases h0 : q = ""
    · simp only [validate_input, if_pos h0]; rfl
    · have hcs : ∃ e, check_input_safety q = Except.error e := by
        unfold check_input_safety
        by_cases h1 : (pyStripStr q).length < 3
        · exact ⟨_, if_pos h1⟩
        · rw [if_neg h1]
          by_cases h2 : (pyStripStr q).length > 500
          · exact ⟨_, if_pos h2⟩
          · rw [if_neg h2, if_pos hq]
            exact ⟨_, rfl⟩
      obtain ⟨e, he⟩ := hcs
      unfold validate_input
      rw [if_neg h0]
      simp only [he]
      rfl

/-- C10 witness: an in-bounds query rejected purely on content. -/
theorem C10_witness : (validate_input "you are now a pirate").isOk = false :=
  C10_content_rejection.2 "you are now a pirate" (by decide)

/-- The retry loop makes exactly one provider call when the first attempt
succeeds. -/
theorem scoreAttempts_calls_one (calls : Nat → Option String) (m idx : Nat)
    (h : (calls idx).isSome = true) : (scoreAttempts calls (m + 1) idx).2 = 1 := by
  obtain ⟨raw, hr⟩ := Option.isSome_iff_exists.mp h
  cases m with
  | zero => simp [scoreAttempts, hr]
  | succ k => simp [scoreAttempts, hr]

/-- Summing a per-index count of 1 over a list gives its length. -/
theorem mapIdx_one_sum (l : List α) (f : Nat → α → Nat) (hf : ∀ i a, f i a = 1) :
    (l.mapIdx f).sum = l.length := by
  induction l generalizing f with
  | nil => rfl
  | cons a t ih =>
    rw [List.mapIdx_cons, List.sum_cons, hf, ih (fun i => f (i + 1)) (fun i b => hf (i + 1) b),
      List.length_cons, Nat.add_comm]

/-- C9 amended: `Retriever.rerank` issues one provider call per candidate —
with n candidates and every first attempt delivered, exactly n calls, not
one — while `LlamaReranker.score_passages` performs a single batched call
regardless of how many passages it scores. -/
theorem C9_amended (query : String) (cands : List Chunk) (tk : Nat)
    (provider : Nat → Nat → Option String) (maxR : Nat)
    (hq : ¬ query = "") (hc : ¬ cands = []) (htk : ¬ tk = 0)
    (hs : ∀ i, (provider i 0).isSome = true) :
    (rerank query cands tk provider maxR).2 = cands.length ∧
    ∀ (q : String) (ps : List (Nat × String)), score_passages_calls q ps = 1 := by
  refine ⟨?_, fun _ _ => rfl⟩
  unfold rerank
  rw [if_neg hq, if_neg hc, if_neg htk]
  exact mapIdx_one_sum cands _ (fun i _ => scoreAttempts_calls_one (provider i) maxR 0 (hs i))

/-- C9 witness: two candidates, all calls delivered — two provider calls. -/
theorem C9_witness :
    (rerank "fire doors" [fireChunk, exitChunk] 5 (fun _ _ => some "0.5") 2).2 =
      ([fireChunk, exitChunk] : List Chunk).length ∧
    ∀ (q : String) (ps : List (Nat × String)), score_passages_calls q ps = 1 :=
  C9_amended "fire doors" [fireChunk, exitChunk] 5 (fun _ _ => some "0.5") 2
    (by decide) (by decide) (by decide) (fun _ => rfl)

/-- C9 counterexample: a reranking invocation over two candidates makes two
provider calls, not one. -/
theorem C9_counterexample :
    (rerank "fire doors" [fireChunk, exitChunk] 5 (fun _ _ => some "0.5") 2).2 = 2 ∧
    (2 : Nat) ≠ 1 ∧ ([fireChunk, exitChunk] : List Chunk).length = 2 := by
  exact ⟨by decide, by decide, by decide⟩

/-- If the lenient link loop passes and every link is in the allowed pages,
the strict link loop passes. -/
theorem checkLinksLoop_strict (pages : List String) (ls : List String)
    (hm : ∀ l ∈ ls, pages.contains l = true)
    (h : checkLinksLoop pages false ls = Except.ok ()) :
    checkLinksLoop pages true ls = Except.ok () := by
  induction ls with
  | nil => rfl
  | cons link rest ih =>
    simp only [checkLinksLoop] at h ⊢
    split at h
    · exact absurd h (by simp)
    next h1 =>
      rw [if_neg (by simp)] at h
      rw [if_neg h1, if_neg (fun hc => hc.2 (hm link (List.mem_cons_self link rest)))]
      exact ih (fun l hl => hm l (List.mem_cons_of_mem link hl)) h

/-- If the lenient media loop passes and every image is a
`"Diagram "`-prefixed reference, the strict media loop passes: the strict
membership test skips such entries. -/
theorem checkMediaLoop_strict (media : List String) (imgs : List String)
    (hd : ∀ i ∈ imgs, pyStartsWith i "Diagram " = true)
    (h : checkMediaLoop media false imgs = Except.ok ()) :
    checkMediaLoop media true imgs = Except.ok () := by
  induction imgs with
  | nil => rfl
  | cons img rest ih =>
    simp only [checkMediaLoop] at h ⊢
    split at h
    · exact absurd h (by simp)
    next h1 =>
      rw [if_neg (by simp)] at h
      rw [if_neg h1, if_neg (fun hc => hc.2.1 (hd img (List.mem_cons_self img rest)))]
      exact ih (fun i hi => hd i (List.mem_cons_of_mem img hi)) h

/-- Strict reference checking passes whenever lenient checking passes, all
links are allowed, and all media entries are diagram references. -/
theorem check_output_references_strict (d : PyJson) (pages media : List String)
    (h : check_output_references d pages media false = Except.ok ())
    (hlinks : ∀ ls, d.getStrListD "links" = Except.ok ls → ∀ l ∈ ls, pages.contains l = true)
    (himgs : ∀ imgs, (d.getD "media" (.obj [])).getStrListD "images" = Except.ok imgs →
      ∀ i ∈ imgs, pyStartsWith i "Diagram " = true) :
    check_output_references d pages media true = Except.ok () := by
  unfold check_output_references at h ⊢
  cases hls : d.getStrListD "links" with
  | error e => simp only [hls] at h; exact Except.noConfusion h
  | ok ls =>
    simp only [hls] at h ⊢
    split at h
    · exact Except.noConfusion h
    next hlen =>
      rw [if_neg hlen]
      cases hcl : checkLinksLoop pages false ls with
      | error e => simp only [hcl] at h; exact Except.noConfusion h
      | ok u =>
        cases u
        simp only [hcl] at h
        simp only [checkLinksLoop_strict pages ls (hlinks ls hls) hcl]
        cases him : (d.getD "media" (.obj [])).getStrListD "images" with
        | error e => simp only [him] at h; exact Except.noConfusion h
        | ok imgs =>
          simp only [him] at h ⊢
          split at h
          · exact Except.noConfusion h
          next hilen =>
            rw [if_neg hilen]
            exact checkMediaLoop_strict media imgs (himgs imgs him) h

/-- C6 amended: an output whose media images are all `"Diagram "`-prefixed
(such as `media.images = ["Diagram D6"]` with empty `allowed_media`) and
whose links are all allowed passes `validate_output` in lenient mode and
also in strict mode — strict mode skips the allowed-set membership test for
diagram-label entries, so no `GuardrailViolation` is raised. -/
theorem C6_amended (d : PyJson) (pages media : List String)
    (h : validate_output d pages media false = Except.ok ())
    (hlinks : ∀ ls, d.getStrListD "links" = Except.ok ls → ∀ l ∈ ls, pages.contains l = true)
    (himgs : ∀ imgs, (d.getD "media" (.obj [])).getStrListD "images" = Except.ok imgs →
      ∀ i ∈ imgs, pyStartsWith i "Diagram " = true) :
    validate_output d pages media true = Except.ok () := by
  unfold validate_output at h ⊢
  cases hs : check_output_structure d with
  | error e => simp only [hs] at h; exact Except.noConfusion h
  | ok u =>
    cases u
    simp only [hs] at h ⊢
    exact check_output_references_strict d pages media h hlinks himgs

/-- C6 witness: the amended theorem applied to the `"Diagram D6"` output
with empty allowed sets. -/
theorem C6_witness : validate_output c6Dict [] [] true = Except.ok () := by
  refine C6_amended c6Dict [] [] (by decide) ?_ ?_
  · intro ls hls l hml
    have h0 : c6Dict.getStrListD "links" = Except.ok [] := by decide
    rw [h0] at hls
    injection hls with h2
    subst h2
    exact absurd hml (List.not_mem_nil l)
  · intro imgs him i hmi
    have h0 : (c6Dict.getD "media" (.obj [])).getStrListD "images" =
        Except.ok ["Diagram D6"] := by decide
    rw [h0] at him
    injection him with h2
    subst h2
    have : i = "Diagram D6" := by simpa using hmi
    subst this
    decide

/-- C6 counterexample: `validate_output` on the `"Diagram D6"` output with
empty `allowed_media` raises no exception in lenient mode — and none in
strict mode either, contrary to the claimed `GuardrailViolation`. -/
theorem C6_counterexample :
    validate_output c6Dict [] [] false = Except.ok () ∧
    validate_output c6Dict [] [] true = Except.ok () := by
  exact ⟨by decide, by decide⟩

/-- C1 amended: the endpoint returns the generator's validated links and
media unchanged: in its lenient output check a link outside `allowed_pages`
(but `/media/`-prefixed) neither fails the request nor is dropped — the
grounding subset invariant is not enforced. -/
theorem C1_amended (question : String) (faiss : List Chunk)
    (provider : Nat → Nat → Option String) (maxR : Nat) (raw : String) (elapsed : Nat)
    (q ctx : String) (pages media : List String) (resp : AnswerResponse) (link : String)
    (hv : validate_input question = Except.ok q)
    (hr : retrieve_with_reranking q faiss provider maxR = Except.ok (some (ctx, pages, media)))
    (hg : generate_structured_answer q ctx pages media raw = Except.ok resp)
    (ho : validate_output resp.model_dump pages media false = Except.ok ())
    (hl : link ∈ resp.links) (hout : link ∉ pages) :
    answer_endpoint question faiss provider maxR (some raw) elapsed =
      Except.ok { resp with latency_ms := elapsed } ∧
    link ∈ ({ resp with latency_ms := elapsed } : AnswerResponse).links ∧ link ∉ pages := by
  refine ⟨?_, hl, hout⟩
  unfold answer_endpoint
  simp only [hv, hr, hg, ho]

/-- C1 witness: the amended theorem at a concrete request whose generator
answer cites `/media/page_999.png` while only `/media/page_5.png` is
allowed. -/
theorem C1_witness :
    answer_endpoint "fire doors" [fireChunk] (fun _ _ => some "0.5") 2 (some c1Raw) 3 =
      Except.ok { c1Resp with latency_ms := 3 } ∧
    "/media/page_999.png" ∈ ({ c1Resp with latency_ms := 3 } : AnswerResponse).links ∧
    "/media/page_999.png" ∉ ["/media/page_5.png"] :=
  C1_amended "fire doors" [fireChunk] (fun _ _ => some "0.5") 2 c1Raw 3
    "fire doors" "[Page 5]\nfire doors must close automatically"
    ["/media/page_5.png"] [] c1Resp "/media/page_999.png"
    (by decide) (by decide) (by decide) (by decide) (by decide) (by decide)

/-- C1 counterexample: a full endpoint run returns HTTP 200 with
`links = ["/media/page_999.png"]` although the allowed page set computed
from the retrieved chunk is `["/media/page_5.png"]`: the out-of-set link is
neither dropped nor an error. -/
theorem C1_counterexample :
    answer_endpoint "fire doors" [fireChunk] (fun _ _ => some "0.5") 2 (some c1Raw) 3 =
      Except.ok { c1Resp with latency_ms := 3 } ∧
    ({ c1Resp with latency_ms := 3 } : AnswerResponse).links = ["/media/page_999.png"] ∧
    pySortedSet ([fireChunk].flatMap (fun r => r.media)) = ["/media/page_5.png"] ∧
    "/media/page_999.png" ∉ ["/media/page_5.png"] := by
  exact ⟨by decide, by decide, by decide, by decide⟩

/-- C4: when the sanitized query shares no word with the assembled context,
the endpoint terminates successfully with the canonical
"No Information Found" response, empty links and empty media. -/
theorem C4_no_overlap_canonical (question : String) (faiss : List Chunk)
    (provider : Nat → Nat → Option String) (maxR : Nat) (gen_raw : Option String)
    (elapsed : Nat) (q : String) (reranked : List Chunk)
    (hv : validate_input question = Except.ok q)
    (hfr : ¬ faiss = [])
    (hr : (rerank q faiss 5 provider maxR).1 = Except.ok reranked)
    (hrel : context_is_relevant q (contextOf reranked) = false) :
    answer_endpoint question faiss provider maxR gen_raw elapsed =
      Except.ok (noInfoResponse elapsed) ∧
    (noInfoResponse elapsed).answer.title = "No Information Found" ∧
    (noInfoResponse elapsed).links = [] ∧
    (noInfoResponse elapsed).media.images = [] := by
  refine ⟨?_, rfl, rfl, rfl⟩
  unfold answer_endpoint
  simp only [hv]
  unfold retrieve_with_reranking
  rw [if_neg hfr]
  simp only [hr]
  by_cases hre : reranked = []
  · simp only [if_pos hre]
  · simp only [if_neg hre, hrel]
    simp

/-- C4 witness: the query "banana recipe" against a fire-safety chunk with
zero lexical overlap yields the canonical answer with HTTP 200. -/
theorem C4_witness :
    answer_endpoint "banana recipe" [fireChunk] (fun _ _ => some "0.5") 2 none 7 =
      Except.ok (noInfoResponse 7) ∧
    (noInfoResponse 7).answer.title = "No Information Found" ∧
    (noInfoResponse 7).links = [] ∧
    (noInfoResponse 7).media.images = [] :=
  C4_no_overlap_canonical "banana recipe" [fireChunk] (fun _ _ => some "0.5") 2 none 7
    "banana recipe" [fireChunk] (by decide) (by decide) (by decide) (by decide)

/-- Inserting adds one element. -/
theorem insertLe_perm (le : α → α → Bool) (x : α) (l : List α) :
    (insertLe le x l).Perm (x :: l) := by
  induction l with
  | nil => exact List.Perm.refl _
  | cons y ys ih =>
    simp only [insertLe]
    split
    · exact List.Perm.refl _
    · exact ((ih.cons y).trans (List.Perm.swap x y ys))

/-- Stable insertion sort is a permutation. -/
theorem sortLe_perm (le : α → α → Bool) (l : List α) : (sortLe le l).Perm l := by
  induction l with
  | nil => exact List.Perm.refl _
  | cons x xs ih =>
    exact (insertLe_perm le x (sortLe le xs)).trans (ih.cons x)

/-- Insertion preserves sortedness for a total transitive comparison. -/
theorem pairwise_insertLe {le : α → α → Bool}
    (htot : ∀ a b, le a b = true ∨ le b a = true)
    (htrans : ∀ a b c, le a b = true → le b c = true → le a c = true)
    (x : α) {l : List α} (h : l.Pairwise (fun a b => le a b = true)) :
    (insertLe le x l).Pairwise (fun a b => le a b = true) := by
  induction l with
  | nil => simp [insertLe]
  | cons y ys ih =>
    obtain ⟨hy, hys⟩ := List.pairwise_cons.mp h
    simp only [insertLe]
    split
    next hxy =>
      refine List.pairwise_cons.mpr ⟨?_, h⟩
      intro z hz
      rcases List.mem_cons.mp hz with rfl | hz
      · exact hxy
      · exact htrans x y z hxy (hy z hz)
    next hxy =>
      have hyx : le y x = true := (htot x y).resolve_left hxy
      refine List.pairwise_cons.mpr ⟨?_, ih hys⟩
      intro z hz
      rcases List.mem_cons.mp ((insertLe_perm le x ys).mem_iff.mp hz) with rfl | hz
      · exact hyx
      · exact hy z hz

/-- Insertion sort sorts, for a total transitive comparison. -/
theorem sortLe_pairwise {le : α → α → Bool}
    (htot : ∀ a b, le a b = true ∨ le b a = true)
    (htrans : ∀ a b c, le a b = true → le b c = true → le a c = true)
    (l : List α) : (sortLe le l).Pairwise (fun a b => le a b = true) := by
  induction l with
  | nil => simp [sortLe]
  | cons x xs ih => exact pairwise_insertLe htot htrans x ih

/-- Decimal comparison is total. -/
theorem PyNum.le_total (a b : PyNum) : a.le b = true ∨ b.le a = true := by
  simp only [PyNum.le, decide_eq_true_eq]
  exact Int.le_total _ _

/-- Decimal comparison is transitive. -/
theorem PyNum.le_trans {a b c : PyNum} (h1 : a.le b = true) (h2 : b.le c = true) :
    a.le c = true := by
  simp only [PyNum.le, decide_eq_true_eq] at h1 h2 ⊢
  have hb : (0 : Int) < 10 ^ b.exp := pow_pos (by norm_num) _
  have ha : (0 : Int) ≤ 10 ^ a.exp := le_of_lt (pow_pos (by norm_num) _)
  have hc : (0 : Int) ≤ 10 ^ c.exp := le_of_lt (pow_pos (by norm_num) _)
  have A := mul_le_mul_of_nonneg_right h1 hc
  have B := mul_le_mul_of_nonneg_right h2 ha
  have C : a.mant * 10 ^ c.exp * 10 ^ b.exp ≤ c.mant * 10 ^ a.exp * 10 ^ b.exp := by
    nlinarith [A, B]
  exact le_of_mul_le_mul_right C hb

/-- A successful comprehension: every element evaluates, lengths agree, and
outputs come from inputs. -/
theorem pyListMap_some (f : α → Option β) (l : List α)
    (h : ∀ x ∈ l, (f x).isSome = true) :
    ∃ ys, pyListMap f l = some ys ∧ ys.length = l.length ∧
      ∀ y ∈ ys, ∃ x ∈ l, f x = some y := by
  induction l with
  | nil => exact ⟨[], rfl, rfl, by simp⟩
  | cons x xs ih =>
    obtain ⟨y, hy⟩ := Option.isSome_iff_exists.mp (h x (List.mem_cons_self x xs))
    obtain ⟨ys, hmap, hlen, hmem⟩ := ih (fun z hz => h z (List.mem_cons_of_mem x hz))
    refine ⟨y :: ys, ?_, by simp [hlen], ?_⟩
    · simp only [pyListMap, hy, hmap]
    · intro z hz
      rcases List.mem_cons.mp hz with rfl | hz
      · exact ⟨x, List.mem_cons_self x xs, hy⟩
      · obtain ⟨w, hw, hfw⟩ := hmem z hz
        exact ⟨w, List.mem_cons_of_mem x hw, hfw⟩

/-- C8 amended: for candidates as produced by hybrid retrieval (at most
`min(top_k, candidate_k)` of them) and a reranker score list covering
exactly the candidate indices, the selection succeeds, has length
`min(candidate_k, |candidates|)`, never exceeds the candidate count, draws
only from the candidates, and the scored list is sorted descending by
score — with ties keeping the order of the reranker's score list (stable
sort), which is the original candidate order only when the reranker lists
the ids in that order. -/
theorem C8_amended (docs : List Chunk) (tk ck : Nat) (ranking : RerankResult)
    (hcov : (ranking.results.map PassageScore.id).Perm
      ((List.range (hybridCandidatesNoRerank docs tk ck).length).map Int.ofNat)) :
    ∃ sel, selectReranked (hybridCandidatesNoRerank docs tk ck) ranking tk = some sel ∧
      sel.length = min ck (hybridCandidatesNoRerank docs tk ck).length ∧
      sel.length ≤ (hybridCandidatesNoRerank docs tk ck).length ∧
      (∀ x ∈ sel, x ∈ hybridCandidatesNoRerank docs tk ck) ∧
      ((pySortDescBy PassageScore.score ranking.results).take tk).Pairwise
        (fun a b => (PassageScore.score b).le (PassageScore.score a) = true) := by
  set results := hybridCandidatesNoRerank docs tk ck with hres
  set n := results.length with hn
  have hn_tk : n ≤ tk := by
    simp only [hn, hres, hybridCandidatesNoRerank, List.length_take]
    omega
  have hn_ck : n ≤ ck := by
    simp only [hn, hres, hybridCandidatesNoRerank, List.length_take]
    omega
  have hrlen : ranking.results.length = n := by
    have := hcov.length_eq
    simpa using this
  set le' : PassageScore → PassageScore → Bool :=
    fun a b => (PassageScore.score b).le (PassageScore.score a) with hle
  have hperm : (sortLe le' ranking.results).Perm ranking.results := sortLe_perm le' _
  have hsortlen : (sortLe le' ranking.results).length = n := hperm.length_eq.trans hrlen
  have hvalid : ∀ p ∈ (sortLe le' ranking.results).take tk,
      (pyIndex results p.id).isSome = true := by
    intro p hp
    have hp1 : p ∈ ranking.results := hperm.mem_iff.mp (List.mem_of_mem_take hp)
    have hp2 : p.id ∈ (List.range n).map Int.ofNat := by
      refine hcov.mem_iff.mp ?_
      exact List.mem_map.mpr ⟨p, hp1, rfl⟩
    obtain ⟨k, hk, hkid⟩ := List.mem_map.mp hp2
    have hkn : k < n := List.mem_range.mp hk
    have h0 : (0 : Int) ≤ p.id := hkid ▸ Int.ofNat_nonneg k
    have htn : p.id.toNat = k := by rw [← hkid]; rfl
    simp only [pyIndex, if_pos h0, htn]
    rw [List.get?_eq_getElem?, List.getElem?_eq_getElem hkn]
    rfl
  obtain ⟨sel, hmap, hlen, hmem⟩ := pyListMap_some _ _ hvalid
  have htake : ((sortLe le' ranking.results).take tk).length = n := by
    rw [List.length_take, hsortlen]
    omega
  refine ⟨sel, hmap, ?_, ?_, ?_, ?_⟩
  · rw [hlen, htake]
    omega
  · rw [hlen, htake]
  · intro x hx
    obtain ⟨p, _, hpx⟩ := hmem x hx
    simp only [pyIndex] at hpx
    split at hpx
    · exact List.get?_mem hpx
    · split at hpx
      · exact List.get?_mem hpx
      · exact Option.noConfusion hpx
  · exact List.Pairwise.sublist (List.take_sublist tk _)
      (@sortLe_pairwise _ le' (fun a b => PyNum.le_total b.score a.score)
        (fun a b c hab hbc => PyNum.le_trans hbc hab) ranking.results)

/-- C8 witness: the amended theorem at two candidates, `top_k = 5`,
`candidate_k = 20`, with scores covering exactly the indices. -/
theorem C8_witness :
    ∃ sel, selectReranked (hybridCandidatesNoRerank [fireChunk, exitChunk] 5 20)
        { results := [{ id := 0, score := ⟨1, 1⟩ }, { id := 1, score := ⟨0, 1⟩ }] } 5 =
        some sel ∧
      sel.length =
        min 20 (hybridCandidatesNoRerank [fireChunk, exitChunk] 5 20).length ∧
      sel.length ≤ (hybridCandidatesNoRerank [fireChunk, exitChunk] 5 20).length ∧
      (∀ x ∈ sel, x ∈ hybridCandidatesNoRerank [fireChunk, exitChunk] 5 20) ∧
      ((pySortDescBy PassageScore.score
          [{ id := 0, score := ⟨1, 1⟩ }, { id := 1, score := ⟨0, 1⟩ }]).take 5).Pairwise
        (fun a b => (PassageScore.score b).le (PassageScore.score a) = true) :=
  C8_amended [fireChunk, exitChunk] 5 20
    { results := [{ id := 0, score := ⟨1, 1⟩ }, { id := 1, score := ⟨0, 1⟩ }] }
    (by decide)

/-- C8 counterexample: equal scores with the ids listed in reversed order —
a score list covering exactly the input indices — select the candidates in
reversed order: ties preserve the reranker's list order, not the original
candidate order. -/
theorem C8_counterexample :
    hybridCandidatesNoRerank [fireChunk, exitChunk] 5 20 = [fireChunk, exitChunk] ∧
    selectReranked [fireChunk, exitChunk]
      { results := [{ id := 1, score := ⟨1, 1⟩ }, { id := 0, score := ⟨1, 1⟩ }] } 5 =
      some [exitChunk, fireChunk] ∧
    (([{ id := 1, score := ⟨1, 1⟩ }, { id := 0, score := ⟨1, 1⟩ }] :
        List PassageScore).map PassageScore.id).Perm
      ((List.range ([fireChunk, exitChunk] : List Chunk).length).map Int.ofNat) ∧
    [exitChunk, fireChunk] ≠ [fireChunk, exitChunk] := by
  exact ⟨by decide, by decide, by decide, by decide⟩

/-- Tag removal yields a sublist of its input. -/
theorem removeTagsF_sublist : ∀ (fuel : Nat) (s : List Char),
    List.Sublist (removeTagsF fuel s) s := by
  intro fuel
  induction fuel with
  | zero => intro s; exact List.Sublist.refl s
  | succ f ih =>
    intro s
    cases s with
    | nil => simp [removeTagsF]
    | cons c rest =>
      by_cases hc : c = '<' ∧ rest.takeWhile (· ≠ '>') ≠ [] ∧ rest.dropWhile (· ≠ '>') ≠ []
      · simp only [removeTagsF, if_pos hc]
        have h1 : List.Sublist (rest.dropWhile (· ≠ '>')).tail (rest.dropWhile (· ≠ '>')) :=
          List.tail_sublist _
        have h2 : List.Sublist (rest.dropWhile (· ≠ '>')) rest := List.dropWhile_sublist _
        exact ((((ih _).trans h1).trans h2).trans (List.sublist_cons_self c rest))
      · simp only [removeTagsF, if_neg hc]
        exact (ih rest).cons₂ c

/-- The empty string has no tag. -/
theorem noTag_nil : ¬ HasTagSub [] := by
  rintro ⟨a, b, c, h, -, -⟩
  cases a <;> simp at h

/-- Splitting a tag occurrence at the head of a list. -/
theorem hasTagSub_cons {c : Char} {t : List Char} (h : HasTagSub (c :: t)) :
    (c = '<' ∧ ∃ b d, t = b ++ '>' :: d ∧ b ≠ [] ∧ '>' ∉ b) ∨ HasTagSub t := by
  obtain ⟨a, b, d, heq, hb, hnb⟩ := h
  cases a with
  | nil =>
    simp only [List.nil_append, List.cons.injEq] at heq
    exact Or.inl ⟨heq.1, b, d, heq.2, hb, hnb⟩
  | cons a0 a' =>
    simp only [List.cons_append, List.cons.injEq] at heq
    exact Or.inr ⟨a', b, d, heq.2, hb, hnb⟩

/-- The output of tag removal contains no tag. -/
theorem removeTagsF_no_tag : ∀ (fuel : Nat) (s : List Char), s.length ≤ fuel →
    ¬ HasTagSub (removeTagsF fuel s) := by
  intro fuel
  induction fuel with
  | zero =>
    intro s hs
    have : s = [] := List.length_eq_zero.mp (Nat.le_zero.mp hs)
    subst this
    exact noTag_nil
  | succ f ih =>
    intro s hs
    cases s with
    | nil => simpa [removeTagsF] using noTag_nil
    | cons c rest =>
      have hrl : rest.length ≤ f := by simpa using hs
      by_cases hc : c = '<' ∧ rest.takeWhile (· ≠ '>') ≠ [] ∧ rest.dropWhile (· ≠ '>') ≠ []
      · simp only [removeTagsF, if_pos hc]
        apply ih
        have heq : (rest.takeWhile (· ≠ '>')).length + (rest.dropWhile (· ≠ '>')).length =
            rest.length := by
          rw [← List.length_append, List.takeWhile_append_dropWhile]
        have h2 : 0 < (rest.takeWhile (· ≠ '>')).length := List.length_pos.mpr hc.2.1
        have h3 : ((rest.dropWhile (· ≠ '>')).tail).length =
            (rest.dropWhile (· ≠ '>')).length - 1 := List.length_tail _
        omega
      · simp only [removeTagsF, if_neg hc]
        intro htag
        rcases hasTagSub_cons htag with ⟨hceq, b, d, hteq, hb, hnb⟩ | htag'
        · subst hceq
          have hcases : rest.takeWhile (· ≠ '>') = [] ∨ rest.dropWhile (· ≠ '>') = [] := by
            by_contra hno
            push_neg at hno
            exact hc ⟨rfl, hno.1, hno.2⟩
          have hgt_mem : '>' ∈ removeTagsF f rest := by
            rw [hteq]
            exact List.mem_append.mpr (Or.inr (List.mem_cons_self _ _))
          have hgt_rest : '>' ∈ rest := (removeTagsF_sublist f rest).subset hgt_mem
          rcases hcases with hT | hD
          · cases hrest : rest with
            | nil =>
              subst hrest
              have hnilf : removeTagsF f [] = [] := by cases f <;> rfl
              rw [hnilf] at hteq
              cases b <;> simp at hteq
            | cons r0 rest' =>
              subst hrest
              have hr0 : r0 = '>' := by
                by_contra hr0
                simp [List.takeWhile_cons, hr0] at hT
              subst hr0
              obtain ⟨f', rfl⟩ : ∃ f', f = f' + 1 := by
                cases f with
                | zero => simp at hrl
                | succ f' => exact ⟨f', rfl⟩
              have hred : removeTagsF (f' + 1) ('>' :: rest') = '>' :: removeTagsF f' rest' := by
                simp only [removeTagsF]
                rw [if_neg]
                rintro ⟨hgt, -, -⟩
                exact absurd hgt (by decide)
              rw [hred] at hteq
              cases b with
              | nil => exact hb rfl
              | cons b0 b' =>
                simp only [List.cons_append, List.cons.injEq] at hteq
                exact hnb (hteq.1 ▸ List.mem_cons_self b0 b')
          · have : ∀ x ∈ rest, x ≠ '>' := by
              have := List.dropWhile_eq_nil_iff.mp hD
              simpa using this
            exact (this '>' hgt_rest) rfl
        · exact ih rest hrl htag'

/-- Lifting an append-with-kept-element decomposition through `filter`. -/
theorem filter_eq_append_cons {p : α → Bool} :
    ∀ (s a b : List α) (x : α), s.filter p = a ++ x :: b →
      ∃ a' b', s = a' ++ x :: b' ∧ a'.filter p = a ∧ b'.filter p = b := by
  intro s
  induction s with
  | nil =>
    intro a b x h
    rw [List.filter_nil] at h
    exact absurd h.symm (List.append_ne_nil_of_right_ne_nil a (by simp))
  | cons c t ih =>
    intro a b x h
    by_cases hp : p c
    · rw [List.filter_cons_of_pos hp] at h
      cases a with
      | nil =>
        simp only [List.nil_append, List.cons.injEq] at h
        exact ⟨[], t, by simp [h.1], rfl, h.2⟩
      | cons a0 a' =>
        simp only [List.cons_append, List.cons.injEq] at h
        obtain ⟨a'', b'', hs, hfa, hfb⟩ := ih a' b x h.2
        exact ⟨c :: a'', b'', by simp [hs], by rw [List.filter_cons_of_pos hp, hfa, h.1], hfb⟩
    · rw [List.filter_cons_of_neg hp] at h
      obtain ⟨a'', b'', hs, hfa, hfb⟩ := ih a b x h
      exact ⟨c :: a'', b'', by simp [hs], by rw [List.filter_cons_of_neg hp, hfa], hfb⟩

/-- Filtering with a predicate that keeps `<` and `>` cannot create a tag. -/
theorem noTag_filter {p : Char → Bool} (hp1 : p '<' = true) (hp2 : p '>' = true)
    {s : List Char} (h : ¬ HasTagSub s) : ¬ HasTagSub (s.filter p) := by
  rintro ⟨a, b, c, heq, hb, hnb⟩
  obtain ⟨a', r', hs, -, hfr⟩ := filter_eq_append_cons s a (b ++ '>' :: c) '<' heq
  obtain ⟨b', c', hr, hfb, -⟩ := filter_eq_append_cons r' b c '>' hfr
  refine h ⟨a', b', c', by rw [hs, hr], ?_, ?_⟩
  · intro hbe
    rw [hbe, List.filter_nil] at hfb
    exact hb hfb.symm
  · intro hgt
    exact hnb (hfb ▸ List.mem_filter.mpr ⟨hgt, hp2⟩)

/-- A tag inside an infix is a tag in the whole string. -/
theorem hasTagSub_of_between {t s : List Char} (ht : HasTagSub t) (hi : t <:+: s) :
    HasTagSub s := by
  obtain ⟨a, b, c, heq, hb, hnb⟩ := ht
  obtain ⟨u, v, huv⟩ := hi
  exact ⟨u ++ a, b, c ++ v, by rw [← huv, heq]; simp, hb, hnb⟩

/-- `strip` keeps an infix of its input. -/
theorem pyStrip_between (s : List Char) : pyStrip s <:+: s := by
  unfold pyStrip
  have h1 : s.dropWhile pyIsSpace <:+ s := List.dropWhile_suffix pyIsSpace
  have h2 : ((s.dropWhile pyIsSpace).reverse.dropWhile pyIsSpace).reverse <+:
      s.dropWhile pyIsSpace := by
    rw [← List.reverse_suffix]
    simpa using List.dropWhile_suffix pyIsSpace
  exact h2.isInfix.trans h1.isInfix

/-- C7 amended: every validated query is returned with no control
characters and no HTML tag; whitespace is collapsed before tag removal, so
the result may still contain runs of whitespace where a tag was deleted. -/
theorem C7_amended (query r : String) (h : validate_input query = Except.ok r) :
    (∀ c ∈ r.toList, isCtl c = false) ∧ ¬ HasTagSub r.toList := by
  have hr : r = sanitize_input query := by
    unfold validate_input at h
    split at h
    · exact Except.noConfusion h
    · revert h
      cases check_input_safety query with
      | error e => intro h; exact Except.noConfusion h
      | ok u => intro h; injection h with h2; exact h2.symm
  subst hr
  have htl : (sanitize_input query).toList =
      pyStrip (((removeTags ((collapseWs query.toList).filter (fun c => !isCtl c))).filter
        (fun c => !isSpecialChar c))) := rfl
  constructor
  · intro c hc
    rw [htl] at hc
    have hc1 : c ∈ ((removeTags ((collapseWs query.toList).filter (fun c => !isCtl c))).filter
        (fun c => !isSpecialChar c)) := (pyStrip_between _).sublist.subset hc
    have hc2 : c ∈ removeTags ((collapseWs query.toList).filter (fun c => !isCtl c)) :=
      (List.mem_filter.mp hc1).1
    have hc3 : c ∈ (collapseWs query.toList).filter (fun c => !isCtl c) :=
      (removeTagsF_sublist _ _).subset hc2
    have := (List.mem_filter.mp hc3).2
    simpa using this
  · intro htag
    rw [htl] at htag
    have h1 : HasTagSub (((removeTags ((collapseWs query.toList).filter
        (fun c => !isCtl c))).filter (fun c => !isSpecialChar c))) :=
      hasTagSub_of_between htag (pyStrip_between _)
    exact noTag_filter (by decide) (by decide)
      (removeTagsF_no_tag _ _ (Nat.le_refl _)) h1

/-- C7 witness: the amended theorem at a clean query. -/
theorem C7_witness :
    (∀ c ∈ ("fire door" : String).toList, isCtl c = false) ∧
    ¬ HasTagSub ("fire door" : String).toList :=
  C7_amended "fire door" "fire door" (by decide)

/-- C7 counterexample: removing the tag from `"hi a <b> c"` leaves two
adjacent spaces, so the sanitized result of a validated query is not
whitespace-collapsed. -/
theorem C7_counterexample :
    validate_input "hi a <b> c" = Except.ok "hi a  c" ∧
    adjacentWs ("hi a  c" : String).toList = true := by
  exact ⟨by decide, by decide⟩
